import Mathlib

/-!
Shallow embedding of the core dispatch/responder logic of this repository:

* `actix-files/src/named.rs`: the `NamedFile` responder (`respond_to`,
  `any_match`, `none_match`, the validator computation).
* `actix-http/src/h2/service.rs`: the per-connection bootstrap state machine
  (`State`, `H2ServiceHandlerResponse::poll`).
* `src/handler.rs`: the typed extraction pipeline (`ExtractService`,
  `ExtractResponse::poll`).
* `src/types/json.rs`: the JSON body extractor (`JsonBody`, `from_request`).

Machine integers (`u64`/`usize`) are modelled as `Nat`; the byte-range and
length arithmetic in the sources never exceeds the file length, so no modular
reduction arises in the modelled paths.  Asynchronous futures are modelled by
explicit poll-step functions over explicit state types; the outcome of an
external future (the h2 handshake, an extraction future, the body stream) is
passed to each poll step as an explicit argument.
-/

namespace ActixWeb

/-- HTTP request method, as used by `named.rs` (only `GET` and `HEAD` are
distinguished by the code). -/
inductive Method : Type
  | GET
  | HEAD
  | other (s : String)
deriving DecidableEq, Repr

/-- Modelled from the spec: entity tags ("an opaque strong entity tag"), as
used by the `actix-http` header types (`header::EntityTag`, not among the
sources): a weakness flag plus an opaque tag string. -/
structure EntityTag where
  weak : Bool
  tag : String
deriving DecidableEq, Repr

/-- A strong entity tag with the given opaque tag string. -/
def EntityTag.strong (t : String) : EntityTag := ⟨false, t⟩

/-- Modelled from the spec: strong ("byte-exact") entity-tag comparison; both
tags must be strong and their opaque strings equal. -/
def EntityTag.strongEq (a b : EntityTag) : Bool :=
  !a.weak && !b.weak && a.tag == b.tag

/-- Modelled from the spec: weak entity-tag comparison; only the opaque
strings are compared. -/
def EntityTag.weakEq (a b : EntityTag) : Bool :=
  a.tag == b.tag

/-- The `If-Match` header value (`header::IfMatch`): `*` or a tag list. -/
inductive IfMatchVal : Type
  | any
  | items (l : List EntityTag)
deriving DecidableEq, Repr

/-- The `If-None-Match` header value (`header::IfNoneMatch`). -/
inductive IfNoneMatchVal : Type
  | any
  | items (l : List EntityTag)
deriving DecidableEq, Repr

/-- A typed request header slot.  `req.get_header::<H>()` yields `None` both
when the header is absent and when it is present but unparsable, while
`req.headers().contains_key(..)` distinguishes the two; the embedding keeps
the three cases apart. -/
inductive Hdr (α : Type) : Type
  | absent
  | malformed
  | value (a : α)
deriving DecidableEq, Repr

/-- The parsed view of a header slot, as returned by `get_header`. -/
def Hdr.get {α : Type} : Hdr α → Option α
  | .absent => none
  | .malformed => none
  | .value a => some a

/-- Whether the raw header is present, as tested by `contains_key`. -/
def Hdr.present {α : Type} : Hdr α → Bool
  | .absent => false
  | .malformed => true
  | .value _ => true

/-- The raw `Range` header value: `HeaderValue::to_str` either fails (opaque
bytes) or yields a string that is handed to `HttpRange::parse`. -/
inductive RangeRaw : Type
  | unreadable
  | readable (s : String)
deriving DecidableEq, Repr

/-- The request head as consulted by `NamedFile::respond_to`. -/
structure HttpRequest where
  method : Method
  ifMatch : Hdr IfMatchVal
  ifNoneMatch : Hdr IfNoneMatchVal
  ifUnmodifiedSince : Hdr Nat
  ifModifiedSince : Hdr Nat
  range : Option RangeRaw
deriving DecidableEq, Repr

/-- Lowercase hexadecimal rendering of a `Nat`, matching Rust's `{:x}`. -/
def hexStr (n : Nat) : String := String.mk (Nat.toDigits 16 n)

/-- The `NamedFile` data relevant to `respond_to`: the file bytes (whose
length is the metadata length `md.len()`), the platform inode (`md.ino()`,
`0` when unavailable), the optional modification time as (seconds,
sub-second nanoseconds) since the epoch, the precomputed `Content-Type` and
`Content-Disposition` strings, the optional content encoding, and the
status code (`200` unless overridden by `set_status_code`). -/
structure NamedFile where
  content : List Nat
  ino : Nat
  modified : Option (Nat × Nat)
  contentType : String
  contentDisposition : String
  encoding : Option String
  statusCode : Nat
deriving DecidableEq, Repr

/-- `self.md.len()`: the byte length of the file. -/
def NamedFile.len (f : NamedFile) : Nat := f.content.length

/-- `NamedFile::etag`: an Apache-style strong tag
`"{ino:x}:{len:x}:{secs:x}:{nanos:x}"`, present iff a modification time is
known. -/
def NamedFile.etag (f : NamedFile) : Option EntityTag :=
  f.modified.map fun m =>
    EntityTag.strong
      (hexStr f.ino ++ ":" ++ hexStr f.len ++ ":" ++ hexStr m.1 ++ ":" ++ hexStr m.2)

/-- `NamedFile::last_modified`: the modification time at HTTP-date (second)
precision, present iff a modification time is known. -/
def NamedFile.lastModified (f : NamedFile) : Option Nat :=
  f.modified.map Prod.fst

/-- Modelled from the spec: `StaticFileConfig` (`actix-files/src/config.rs`
is not among the sources): the flag set {use strong validator, use
last-modified, allowed methods}. -/
structure StaticFileConfig where
  isUseEtag : Bool
  isUseLastModifier : Bool
  isMethodAllowed : Method → Bool

/-- Modelled from the spec: the default configuration uses both validators
and allows exactly `GET` and `HEAD`. -/
def DefaultConfig : StaticFileConfig :=
  ⟨true, true, fun m => m == .GET || m == .HEAD⟩

/-- The response body description: empty (`finish()`), a plain message body,
or a chunked file stream reading `size` bytes from `offset`. -/
inductive RespBody : Type
  | empty
  | msg (s : String)
  | fileStream (offset size : Nat)
deriving DecidableEq, Repr

/-- The response head assembled by `respond_to`, with one field per header
the code can set. -/
structure Response where
  status : Nat
  contentType : Option String := none
  contentDisposition : Option String := none
  contentEncoding : Option String := none
  lastModified : Option Nat := none
  etagHdr : Option EntityTag := none
  acceptRanges : Bool := false
  contentRange : Option String := none
  contentLength : Option Nat := none
  allow : Option String := none
  body : RespBody := .empty
deriving DecidableEq, Repr

/-- Modelled from the spec: the bytes a `ChunkedReadFile` body actually
serves — "a chunked, bounded read loop that never reads past
`offset + length`" (`ChunkedReadFile` itself is not among the sources).  A
plain message body reads no file bytes. -/
def fileBytes (content : List Nat) : RespBody → List Nat
  | .empty => []
  | .msg _ => []
  | .fileStream offset size => (content.drop offset).take size

/-- `any_match`: true iff `req` has no `If-Match` header or one which
matches `etag` (strong comparison). -/
def any_match (etag : Option EntityTag) (req : HttpRequest) : Bool :=
  match req.ifMatch.get with
  | none => true
  | some .any => true
  | some (.items items) =>
    match etag with
    | some someEtag => items.any fun item => item.strongEq someEtag
    | none => false

/-- `none_match`: true iff `req` has no `If-None-Match` header matching
`etag` (weak comparison). -/
def none_match (etag : Option EntityTag) (req : HttpRequest) : Bool :=
  match req.ifNoneMatch.get with
  | some .any => false
  | some (.items items) =>
    match etag with
    | some someEtag => !(items.any fun item => item.weakEq someEtag)
    | none => true
  | none => true

/-- The etag actually used by `respond_to`: `self.etag()` if the
configuration enables etags, else `None`. -/
def usedEtag (cfg : StaticFileConfig) (f : NamedFile) : Option EntityTag :=
  if cfg.isUseEtag then f.etag else none

/-- The last-modified value actually used by `respond_to`. -/
def usedLastMod (cfg : StaticFileConfig) (f : NamedFile) : Option Nat :=
  if cfg.isUseLastModifier then f.lastModified else none

/-- The `precondition_failed` flag of `respond_to`: `If-Match` fails to
match, or `If-Unmodified-Since` is present, a last-modified value exists,
and last-modified is strictly later. -/
def preconditionFailed (etag : Option EntityTag) (lastMod : Option Nat)
    (req : HttpRequest) : Bool :=
  if !(any_match etag req) then true
  else
    match lastMod, req.ifUnmodifiedSince.get with
    | some m, some since => decide (since < m)
    | _, _ => false

/-- The `not_modified` flag of `respond_to`: `If-None-Match` matches; else
false when an `If-None-Match` header is present at all; else the
`If-Modified-Since` fallback. -/
def notModified (etag : Option EntityTag) (lastMod : Option Nat)
    (req : HttpRequest) : Bool :=
  if !(none_match etag req) then true
  else if req.ifNoneMatch.present then false
  else
    match lastMod, req.ifModifiedSince.get with
    | some m, some since => decide (m ≤ since)
    | _, _ => false

/-- The `Content-Range` value `format!("bytes {}-{}/{}", offset,
offset + length - 1, total)`. -/
def contentRangeStr (offset length total : Nat) : String :=
  "bytes " ++ toString offset ++ "-" ++ toString (offset + length - 1) ++ "/" ++ toString total

/-- The `Content-Range` value `format!("bytes */{}", total)` of the
unsatisfiable-range branch. -/
def contentRangeUnsat (total : Nat) : String :=
  "bytes */" ++ toString total

/-- The response builder state after the common header block of
`respond_to` (content type, disposition, encoding, validators,
`Accept-Ranges: bytes`), before the range check. -/
def condResp (cfg : StaticFileConfig) (f : NamedFile) : Response :=
  { status := f.statusCode
    contentType := some f.contentType
    contentDisposition := some f.contentDisposition
    contentEncoding := f.encoding
    lastModified := usedLastMod cfg f
    etagHdr := usedEtag cfg f
    acceptRanges := true }

/-- The tail of `respond_to` after the range check: set `Content-Length`,
then return `412` / `304` / headers-only for `HEAD` / a file stream,
with `206` exactly when the served window is a proper sub-range. -/
def afterRangeResp (resp : Response) (pf nm : Bool) (method : Method)
    (totalLen offset length : Nat) : Response :=
  let resp := { resp with contentLength := some length }
  if pf then { resp with status := 412 }
  else if nm then { resp with status := 304 }
  else if method == .HEAD then resp
  else if offset != 0 || length != totalLen then
    { resp with status := 206, body := .fileStream offset length }
  else
    { resp with body := .fileStream offset length }

/-- `NamedFile::respond_to` (`named.rs` lines 306-445).  `parse` stands for
`HttpRange::parse` (`actix-files/src/range.rs` is not among the sources);
modelled from the spec, it yields the first parsed satisfiable range
`(start, length)` against the given total length, or `none` when no
satisfiable range exists. -/
def respond_to (cfg : StaticFileConfig) (parse : String → Nat → Option (Nat × Nat))
    (f : NamedFile) (req : HttpRequest) : Response :=
  if f.statusCode != 200 then
    { status := f.statusCode
      contentType := some f.contentType
      contentDisposition := some f.contentDisposition
      contentEncoding := f.encoding
      body := .fileStream 0 f.len }
  else if !(cfg.isMethodAllowed req.method) then
    { status := 405
      contentType := some "text/plain"
      allow := some "GET, HEAD"
      body := .msg "This resource only supports GET and HEAD." }
  else
    let etag := usedEtag cfg f
    let lastMod := usedLastMod cfg f
    let pf := preconditionFailed etag lastMod req
    let nm := notModified etag lastMod req
    let resp := condResp cfg f
    match req.range with
    | some .unreadable => { resp with status := 400 }
    | some (.readable s) =>
      match parse s f.len with
      | some (start, rlen) =>
        let resp := { resp with contentRange := some (contentRangeStr start rlen f.len) }
        afterRangeResp resp pf nm req.method f.len start rlen
      | none =>
        { resp with contentRange := some (contentRangeUnsat f.len), status := 416 }
    | none => afterRangeResp resp pf nm req.method f.len 0 f.len

/-- The three-valued outcome of polling a 0.1-style future:
`Ok(Async::Ready(a))`, `Ok(Async::NotReady)`, or `Err(e)`. -/
inductive Poll (α ε : Type) : Type
  | ready (a : α)
  | notReady
  | error (e : ε)
deriving DecidableEq, Repr

/-- Modelled from the spec: the steady-state h2 dispatcher, "constructed
with the negotiated transport, the resolved Service, and connection
configuration" (`Dispatcher::new(srv, conn, config, None, peer_addr)`;
`h2/dispatcher.rs` is not among the sources).  It owns exactly the
arguments `State::Handshake` hands it. -/
structure Dispatcher (Srv Conn Cfg Addr : Type) : Type where
  srv : Srv
  conn : Conn
  config : Cfg
  peerAddr : Option Addr
deriving DecidableEq, Repr

/-- The per-connection bootstrap state (`h2/service.rs` `enum State`):
either the steady-state dispatcher (`Incoming`) or the pending handshake
together with the data the dispatcher will be built from (`Handshake`). -/
inductive H2State (Srv Conn Cfg Addr HS : Type) : Type
  | incoming (disp : Dispatcher Srv Conn Cfg Addr)
  | handshake (srv : Srv) (config : Cfg) (peerAddr : Option Addr) (hs : HS)
deriving DecidableEq, Repr

/-- One poll of `H2ServiceHandlerResponse` (`h2/service.rs` lines 214-240),
returning the successor state and the poll result.  `pollHandshake` gives
the current outcome of `handshake.poll()`, `pollDisp` the outcome of
`Dispatcher::poll`, and `intoDispatchError` is `err.into()`.  On a
completed handshake the code assigns `State::Incoming(..)` and immediately
calls `self.poll()` again, which lands in the `Incoming` arm; the
embedding inlines that tail call. -/
def h2Poll {Srv Conn Cfg Addr HS HErr DErr : Type}
    (pollHandshake : HS → Poll Conn HErr)
    (pollDisp : Dispatcher Srv Conn Cfg Addr → Poll Unit DErr)
    (intoDispatchError : HErr → DErr) :
    H2State Srv Conn Cfg Addr HS → H2State Srv Conn Cfg Addr HS × Poll Unit DErr
  | .incoming disp => (.incoming disp, pollDisp disp)
  | .handshake srv config peerAddr hs =>
    match pollHandshake hs with
    | .ready conn =>
      let disp : Dispatcher Srv Conn Cfg Addr := ⟨srv, conn, config, peerAddr⟩
      (.incoming disp, pollDisp disp)
    | .notReady => (.handshake srv config peerAddr hs, .notReady)
    | .error e => (.handshake srv config peerAddr hs, .error (intoDispatchError e))

/-- `ServiceRequest` as used by `handler.rs`: an `HttpRequest` paired with
its payload (`into_parts` / `from_parts`); `src/service.rs` is not among
the sources, but `handler.rs` uses exactly this pairing. -/
structure ServiceRequest (Req Pl : Type) : Type where
  req : Req
  payload : Pl
deriving DecidableEq, Repr

/-- `ServiceRequest::from_parts`. -/
def ServiceRequest.from_parts {Req Pl : Type} (req : Req) (payload : Pl) :
    ServiceRequest Req Pl := ⟨req, payload⟩

/-- The state of `ExtractResponse` (`handler.rs` lines 340-345): the
original request and its (so far unconsumed) payload, plus the inner
service future once the extraction has succeeded (`fut_s`). -/
structure ExtractResponse (Req Pl SFut : Type) : Type where
  req : Req
  payload : Pl
  fut_s : Option SFut
deriving DecidableEq, Repr

/-- `ExtractService::call` (`handler.rs` lines 326-337): split the
`ServiceRequest`, attach the route data to the request, and start the
extraction with no service future yet. -/
def extractCall {Req Pl SFut Cfg : Type} (setRouteData : Option Cfg → Req → Req)
    (config : Option Cfg) (sreq : ServiceRequest Req Pl) : ExtractResponse Req Pl SFut :=
  { req := setRouteData config sreq.req
    payload := sreq.payload
    fut_s := none }

/-- One poll of `ExtractResponse` (`handler.rs` lines 354-367).  `pollFut`
is the current outcome of the extraction future `self.fut.poll()`,
`callService` is `self.service.call`, and `pollService` polls the inner
service future (whose error type `Void` is embedded as `Empty`).  On
extraction success the code stores the service future and calls
`self.poll()` again, which polls that future; the embedding inlines that
tail call. -/
def extractPoll {T E Req Pl SFut SR : Type}
    (pollFut : Poll T E)
    (callService : T → Req → SFut)
    (pollService : SFut → Poll SR Empty)
    (er : ExtractResponse Req Pl SFut) :
    ExtractResponse Req Pl SFut × Poll SR (E × ServiceRequest Req Pl) :=
  match er.fut_s with
  | some fut =>
    (er,
      match pollService fut with
      | .ready res => .ready res
      | .notReady => .notReady
      | .error e => e.elim)
  | none =>
    match pollFut with
    | .error e =>
      (er, .error (e, ServiceRequest.from_parts er.req er.payload))
    | .notReady => (er, .notReady)
    | .ready item =>
      let fut := callService item er.req
      ({ er with fut_s := some fut },
        match pollService fut with
        | .ready res => .ready res
        | .notReady => .notReady
        | .error e => e.elim)

/-- The JSON payload error cases used by `json.rs` (`JsonPayloadError`
itself lives in `src/error.rs`, not among the sources; these are the
variants `json.rs` constructs plus deserialization/payload failure). -/
inductive JsonPayloadError : Type
  | overflow
  | contentType
  | deserialize
deriving DecidableEq, Repr

/-- `JsonConfig` (`json.rs` lines 237-241); the error handler is kept
abstract as its presence does not affect the modelled paths. -/
structure JsonConfig : Type where
  limit : Nat
  ehandler : Option (JsonPayloadError → Nat)
    -- an error handler maps the failure to an application error code

/-- `JsonConfig::default`: limit 32768, no custom error handler. -/
def JsonConfig.default : JsonConfig := ⟨32768, none⟩

/-- The state of `JsonBody` (`json.rs` lines 276-282): the size limit, the
parsed `Content-Length` (if any), whether the payload stream was captured,
and a pending early error. -/
structure JsonBody : Type where
  limit : Nat
  length : Option Nat
  hasStream : Bool
  err : Option JsonPayloadError
deriving DecidableEq, Repr

/-- Accumulate decimal digits; any non-digit character fails. -/
def digitsToNat (acc : Nat) : List Char → Option Nat
  | [] => some acc
  | c :: cs => if c.isDigit then digitsToNat (acc * 10 + (c.toNat - 48)) cs else none

/-- Modelled from the Rust standard library's `usize::from_str` as invoked
by `json.rs` (`s.parse::<usize>()`): an optional leading `+` followed by
one or more decimal digits (the `usize` overflow bound is idealized
away — the limits compared against are far below it). -/
def parseUsize (s : String) : Option Nat :=
  match s.data with
  | [] => none
  | '+' :: [] => none
  | '+' :: cs => digitsToNat 0 cs
  | cs => digitsToNat 0 cs

/-- `JsonBody::new` (`json.rs` lines 289-323).  `ctypeJson` is the
content-type check `mime.subtype() == JSON || mime.suffix() == Some(JSON)`;
`contentLengthHdr` is the raw `Content-Length` header value, parsed with
`parse::<usize>` (embedded as `parseUsize`). -/
def JsonBody.new (ctypeJson : Bool) (contentLengthHdr : Option String) : JsonBody :=
  if !ctypeJson then
    { limit := 262144, length := none, hasStream := false, err := some .contentType }
  else
    { limit := 262144
      length := contentLengthHdr.bind parseUsize
      hasStream := true
      err := none }

/-- `JsonBody::limit`: replace the size limit. -/
def JsonBody.withLimit (jb : JsonBody) (limit : Nat) : JsonBody :=
  { jb with limit := limit }

/-- The body-collection fold of `JsonBody::poll` (`json.rs` lines 355-367):
accumulate chunks, failing with overflow as soon as the accumulated size
would exceed the limit.  Returns the collected body (or `none` on
overflow) together with the number of payload bytes pulled from the
stream. -/
def readBody (limit : Nat) (acc : List Nat) :
    List (List Nat) → Option (List Nat) × Nat
  | [] => (some acc, 0)
  | chunk :: rest =>
    if acc.length + chunk.length > limit then (none, chunk.length)
    else
      let r := readBody limit (acc ++ chunk) rest
      (r.1, chunk.length + r.2)

/-- `JsonBody::poll` (`json.rs` lines 339-371), run to completion over the
given payload chunks: a pending early error fires first; then a declared
`Content-Length` above the limit fails with `Overflow` before the stream
is touched; otherwise the body is folded up and deserialized
(`deserialize` stands for `serde_json::from_slice`).  The second component
counts the payload bytes read from the stream. -/
def JsonBody.poll {U : Type} (jb : JsonBody) (deserialize : List Nat → Option U)
    (chunks : List (List Nat)) : Except JsonPayloadError U × Nat :=
  match jb.err with
  | some e => (.error e, 0)
  | none =>
    match jb.length with
    | some len =>
      if len > jb.limit then (.error .overflow, 0)
      else
        match readBody jb.limit [] chunks with
        | (none, n) => (.error .overflow, n)
        | (some body, n) =>
          match deserialize body with
          | some u => (.ok u, n)
          | none => (.error .deserialize, n)
    | none =>
      match readBody jb.limit [] chunks with
      | (none, n) => (.error .overflow, n)
      | (some body, n) =>
        match deserialize body with
        | some u => (.ok u, n)
        | none => (.error .deserialize, n)

/-- `Json::<T>::from_request` (`json.rs` lines 176-203): take the limit
from the attached `JsonConfig` route data, defaulting to `32768`, and
build the `JsonBody` future with that limit. -/
def jsonFromRequest (config : Option JsonConfig) (ctypeJson : Bool)
    (contentLengthHdr : Option String) : JsonBody :=
  let limit := (config.map JsonConfig.limit).getD 32768
  (JsonBody.new ctypeJson contentLengthHdr).withLimit limit

/-- The not-modified condition in the words of the spec: `If-None-Match: *`;
or present `If-None-Match` entities with a weak match against the
validator; or no `If-None-Match` header at all and a last-modified value
that is at most the `If-Modified-Since` timestamp. -/
def notModifiedClaim (etag : Option EntityTag) (lastMod : Option Nat)
    (req : HttpRequest) : Prop :=
  req.ifNoneMatch.get = some .any
  ∨ (∃ l, req.ifNoneMatch.get = some (.items l)
      ∧ ∃ t ∈ l, ∃ e, etag = some e ∧ t.weakEq e = true)
  ∨ (req.ifNoneMatch = .absent
      ∧ ∃ m since, lastMod = some m ∧ req.ifModifiedSince.get = some since ∧ m ≤ since)

/-- The precondition-failed condition in the words of the spec: `If-Match`
is present with entity tags none of which strong-matches the validator, or
`If-Unmodified-Since` is present, a last-modified value exists, and
last-modified is strictly later than the header's timestamp. -/
def preconditionClaim (etag : Option EntityTag) (lastMod : Option Nat)
    (req : HttpRequest) : Prop :=
  (∃ l, req.ifMatch.get = some (.items l)
      ∧ ∀ t ∈ l, ¬∃ e, etag = some e ∧ t.strongEq e = true)
  ∨ (∃ m since, req.ifUnmodifiedSince.get = some since ∧ lastMod = some m ∧ since < m)

theorem notModified_iff (etag : Option EntityTag) (lastMod : Option Nat)
    (req : HttpRequest) :
    notModified etag lastMod req = true ↔ notModifiedClaim etag lastMod req := by
  obtain ⟨method, im, inm, ius, ims, rg⟩ := req
  cases inm with
  | absent =>
    cases lastMod with
    | none => simp [notModifiedClaim, notModified, none_match, Hdr.get, Hdr.present]
    | some m =>
      cases ims with
      | absent => simp [notModifiedClaim, notModified, none_match, Hdr.get, Hdr.present]
      | malformed => simp [notModifiedClaim, notModified, none_match, Hdr.get, Hdr.present]
      | value since =>
        simp [notModifiedClaim, notModified, none_match, Hdr.get, Hdr.present]
  | malformed =>
    simp [notModifiedClaim, notModified, none_match, Hdr.get, Hdr.present]
  | value v =>
    cases v with
    | any => simp [notModifiedClaim, notModified, none_match, Hdr.get, Hdr.present]
    | items l =>
      cases etag with
      | none =>
        simp [notModifiedClaim, notModified, none_match, Hdr.get, Hdr.present]
      | some e =>
        cases ha : l.any fun item => item.weakEq e with
        | true =>
          simp [notModifiedClaim, notModified, none_match, Hdr.get, Hdr.present, ha]
          simpa using List.any_eq_true.mp ha
        | false =>
          simp [notModifiedClaim, notModified, none_match, Hdr.get, Hdr.present, ha]
          simpa using List.any_eq_false.mp ha

theorem preconditionFailed_iff (etag : Option EntityTag) (lastMod : Option Nat)
    (req : HttpRequest) :
    preconditionFailed etag lastMod req = true ↔ preconditionClaim etag lastMod req := by
  obtain ⟨method, im, inm, ius, ims, rg⟩ := req
  have hfall :
      ∀ im' : Hdr IfMatchVal,
        (match lastMod,
            ({ method := method, ifMatch := im', ifNoneMatch := inm,
               ifUnmodifiedSince := ius, ifModifiedSince := ims,
               range := rg : HttpRequest }).ifUnmodifiedSince.get with
          | some m, some since => decide (since < m)
          | _, _ => false) = true
        ↔ (∃ m since,
            ({ method := method, ifMatch := im', ifNoneMatch := inm,
               ifUnmodifiedSince := ius, ifModifiedSince := ims,
               range := rg : HttpRequest }).ifUnmodifiedSince.get = some since
            ∧ lastMod = some m ∧ since < m) := by
    intro im'
    cases lastMod with
    | none => simp
    | some m =>
      cases ius with
      | absent => simp [Hdr.get]
      | malformed => simp [Hdr.get]
      | value since => simp [Hdr.get]
  cases im with
  | absent =>
    simp only [preconditionClaim, preconditionFailed, any_match, Hdr.get,
      Bool.not_true, Bool.false_eq_true, if_false, reduceCtorEq, false_and,
      exists_false, false_or]
    exact hfall .absent
  | malformed =>
    simp only [preconditionClaim, preconditionFailed, any_match, Hdr.get,
      Bool.not_true, Bool.false_eq_true, if_false, reduceCtorEq, false_and,
      exists_false, false_or]
    exact hfall .malformed
  | value v =>
    cases v with
    | any =>
      simp only [preconditionClaim, preconditionFailed, any_match, Hdr.get,
        Bool.not_true, Bool.false_eq_true, if_false, Option.some.injEq, reduceCtorEq,
        false_and, exists_false, false_or]
      exact hfall (.value .any)
    | items l =>
      cases etag with
      | none =>
        simp [preconditionClaim, preconditionFailed, any_match, Hdr.get]
      | some e =>
        cases ha : l.any fun item => item.strongEq e with
        | false =>
          simp only [preconditionFailed, any_match, Hdr.get, ha, Bool.not_false,
            if_true, preconditionClaim, Option.some.injEq, true_iff]
          left
          refine ⟨l, by simp [Hdr.get], fun t ht => ?_⟩
          rintro ⟨e', he', hs⟩
          obtain rfl : e = e' := by simpa using he'
          exact absurd hs (by simpa using List.any_eq_false.mp ha t ht)
        | true =>
          obtain ⟨t0, ht0, hs0⟩ := List.any_eq_true.mp ha
          have hd1 : ¬∀ t ∈ l, ¬t.strongEq e = true := fun hall => hall t0 ht0 hs0
          cases lastMod <;> cases ius <;>
            simp [preconditionFailed, any_match, Hdr.get, ha, preconditionClaim, hd1] <;>
            first
              | exact ⟨t0, ht0, hs0⟩
              | exact fun hall => absurd (fun t ht => by simpa using hall t ht) hd1

theorem respond_to_override {cfg : StaticFileConfig}
    {parse : String → Nat → Option (Nat × Nat)} {f : NamedFile}
    (h : f.statusCode ≠ 200) (req : HttpRequest) :
    respond_to cfg parse f req =
      { status := f.statusCode
        contentType := some f.contentType
        contentDisposition := some f.contentDisposition
        contentEncoding := f.encoding
        body := .fileStream 0 f.len } := by
  simp [respond_to, h]

theorem respond_to_sat {cfg : StaticFileConfig}
    {parse : String → Nat → Option (Nat × Nat)} {f : NamedFile} {req : HttpRequest}
    {str : String} {s l : Nat}
    (h200 : f.statusCode = 200) (hm : cfg.isMethodAllowed req.method = true)
    (hr : req.range = some (.readable str)) (hp : parse str f.len = some (s, l)) :
    respond_to cfg parse f req =
      afterRangeResp
        { condResp cfg f with contentRange := some (contentRangeStr s l f.len) }
        (preconditionFailed (usedEtag cfg f) (usedLastMod cfg f) req)
        (notModified (usedEtag cfg f) (usedLastMod cfg f) req)
        req.method f.len s l := by
  simp [respond_to, h200, hm, hr, hp]

theorem respond_to_norange {cfg : StaticFileConfig}
    {parse : String → Nat → Option (Nat × Nat)} {f : NamedFile} {req : HttpRequest}
    (h200 : f.statusCode = 200) (hm : cfg.isMethodAllowed req.method = true)
    (hr : req.range = none) :
    respond_to cfg parse f req =
      afterRangeResp (condResp cfg f)
        (preconditionFailed (usedEtag cfg f) (usedLastMod cfg f) req)
        (notModified (usedEtag cfg f) (usedLastMod cfg f) req)
        req.method f.len 0 f.len := by
  simp [respond_to, h200, hm, hr]

theorem respond_to_unsat {cfg : StaticFileConfig}
    {parse : String → Nat → Option (Nat × Nat)} {f : NamedFile} {req : HttpRequest}
    {str : String}
    (h200 : f.statusCode = 200) (hm : cfg.isMethodAllowed req.method = true)
    (hr : req.range = some (.readable str)) (hp : parse str f.len = none) :
    respond_to cfg parse f req =
      { condResp cfg f with
        contentRange := some (contentRangeUnsat f.len), status := 416 } := by
  simp [respond_to, h200, hm, hr, hp]

theorem respond_to_unreadable {cfg : StaticFileConfig}
    {parse : String → Nat → Option (Nat × Nat)} {f : NamedFile} {req : HttpRequest}
    (h200 : f.statusCode = 200) (hm : cfg.isMethodAllowed req.method = true)
    (hr : req.range = some .unreadable) :
    respond_to cfg parse f req = { condResp cfg f with status := 400 } := by
  simp [respond_to, h200, hm, hr]

/-- The status of the post-range tail, by cases on the two flags, the
method, and the proper-sub-range test. -/
theorem afterRangeResp_status (r : Response) (pf nm : Bool) (m : Method)
    (tl o l : Nat) :
    (afterRangeResp r pf nm m tl o l).status =
      if pf then 412
      else if nm then 304
      else if m == .HEAD then r.status
      else if o != 0 || l != tl then 206
      else r.status := by
  cases pf <;> cases nm <;>
    simp only [afterRangeResp, Bool.false_eq_true, if_false, if_true] <;>
    cases hm : m == .HEAD <;>
    simp only [Bool.false_eq_true, if_false, if_true] <;>
    cases ho : o != 0 || l != tl <;>
    simp

/-- The body of the post-range tail: unchanged on `412`/`304`/`HEAD`, a
file stream of the served window otherwise. -/
theorem afterRangeResp_body (r : Response) (pf nm : Bool) (m : Method)
    (tl o l : Nat) :
    (afterRangeResp r pf nm m tl o l).body =
      if pf then r.body
      else if nm then r.body
      else if m == .HEAD then r.body
      else .fileStream o l := by
  cases pf <;> cases nm <;>
    simp only [afterRangeResp, Bool.false_eq_true, if_false, if_true] <;>
    cases hm : m == .HEAD <;>
    simp only [Bool.false_eq_true, if_false, if_true] <;>
    cases ho : o != 0 || l != tl <;>
    simp

/-- C9: for every `NamedFile` whose status code was overridden to a
non-200 value, `respond_to` returns that status with `Content-Type`,
`Content-Disposition` and any configured `Content-Encoding` attached and
streams the full resource, producing no `ETag`, `Last-Modified`,
`Accept-Ranges` or `Content-Range` header; the result ignores the
request's method and conditional/Range headers entirely. -/
theorem respond_status_override (cfg : StaticFileConfig)
    (parse : String → Nat → Option (Nat × Nat)) (f : NamedFile)
    (h : f.statusCode ≠ 200) (req : HttpRequest) :
    respond_to cfg parse f req =
      { status := f.statusCode
        contentType := some f.contentType
        contentDisposition := some f.contentDisposition
        contentEncoding := f.encoding
        lastModified := none
        etagHdr := none
        acceptRanges := false
        contentRange := none
        contentLength := none
        allow := none
        body := .fileStream 0 f.len }
    ∧ (∀ req' : HttpRequest, respond_to cfg parse f req = respond_to cfg parse f req')
    ∧ fileBytes f.content (respond_to cfg parse f req).body = f.content := by
  refine ⟨respond_to_override h req, fun req' => ?_, ?_⟩
  · rw [respond_to_override h req, respond_to_override h req']
  · rw [respond_to_override h req]
    simp [fileBytes, NamedFile.len]

/-- C10: with the default status and an allowed method, a present but
unreadable `Range` header value yields `400 Bad Request` with an empty
body, no `Content-Range` and no `Content-Length`, regardless of the
conditional headers (the `412`/`304` outcomes are skipped). -/
theorem respond_unreadable_range_400 (cfg : StaticFileConfig)
    (parse : String → Nat → Option (Nat × Nat)) (f : NamedFile) (req : HttpRequest)
    (h200 : f.statusCode = 200) (hm : cfg.isMethodAllowed req.method = true)
    (hr : req.range = some .unreadable) :
    (respond_to cfg parse f req).status = 400
    ∧ (respond_to cfg parse f req).body = .empty
    ∧ (respond_to cfg parse f req).contentRange = none
    ∧ (respond_to cfg parse f req).contentLength = none
    ∧ fileBytes f.content (respond_to cfg parse f req).body = [] := by
  rw [respond_to_unreadable h200 hm hr]
  simp [condResp, fileBytes]

/-- C3: with the default status and an allowed method, a readable `Range`
header that does not parse to any satisfiable byte range against the
file's total length yields `416 Range Not Satisfiable` with
`Content-Range: bytes */{total}` and an empty body. -/
theorem respond_unsat_range_416 (cfg : StaticFileConfig)
    (parse : String → Nat → Option (Nat × Nat)) (f : NamedFile) (req : HttpRequest)
    (str : String)
    (h200 : f.statusCode = 200) (hm : cfg.isMethodAllowed req.method = true)
    (hr : req.range = some (.readable str)) (hp : parse str f.len = none) :
    (respond_to cfg parse f req).status = 416
    ∧ (respond_to cfg parse f req).contentRange = some ("bytes */" ++ toString f.len)
    ∧ (respond_to cfg parse f req).body = .empty
    ∧ fileBytes f.content (respond_to cfg parse f req).body = [] := by
  rw [respond_to_unsat h200 hm hr hp]
  simp [condResp, contentRangeUnsat, fileBytes]

theorem afterRangeResp_fields (r : Response) (pf nm : Bool) (m : Method)
    (tl o l : Nat) :
    (afterRangeResp r pf nm m tl o l).contentRange = r.contentRange
    ∧ (afterRangeResp r pf nm m tl o l).etagHdr = r.etagHdr
    ∧ (afterRangeResp r pf nm m tl o l).lastModified = r.lastModified
    ∧ (afterRangeResp r pf nm m tl o l).contentLength = some l
    ∧ (afterRangeResp r pf nm m tl o l).contentType = r.contentType := by
  cases pf <;> cases nm <;> cases hm : m == .HEAD <;>
    cases ho : o != 0 || l != tl <;>
    simp [afterRangeResp, hm, ho]

theorem afterRange_status_412_iff (r : Response) (pf nm : Bool) (m : Method)
    (tl o l : Nat) (hrs : r.status = 200) :
    (afterRangeResp r pf nm m tl o l).status = 412 ↔ pf = true := by
  rw [afterRangeResp_status]
  cases pf <;> cases nm <;> cases hm : m == .HEAD <;>
    cases ho : o != 0 || l != tl <;>
    simp [hm, ho, hrs]

theorem afterRange_status_304_iff (r : Response) (pf nm : Bool) (m : Method)
    (tl o l : Nat) (hrs : r.status = 200) :
    (afterRangeResp r pf nm m tl o l).status = 304 ↔ (pf = false ∧ nm = true) := by
  rw [afterRangeResp_status]
  cases pf <;> cases nm <;> cases hm : m == .HEAD <;>
    cases ho : o != 0 || l != tl <;>
    simp [hm, ho, hrs]

/-- C1 (amended): with the default status, an allowed method, and both the
precondition and not-modified checks passing, a `Range` header parsing to
a satisfiable byte range `[s, s+l)` always produces the header
`Content-Range: bytes s-(s+l-1)/{total}` and `Content-Length: l`; for a
`GET` request the body is exactly the `l` bytes starting at offset `s`,
with status `206` exactly when the range is a proper sub-range (`s ≠ 0` or
`l ≠ total`) and status `200` for a range covering the whole file; a
`HEAD` request is served with status `200` and no body. -/
theorem respond_satisfiable_range (cfg : StaticFileConfig)
    (parse : String → Nat → Option (Nat × Nat)) (f : NamedFile) (req : HttpRequest)
    (str : String) (s l : Nat)
    (h200 : f.statusCode = 200) (hm : cfg.isMethodAllowed req.method = true)
    (hr : req.range = some (.readable str)) (hp : parse str f.len = some (s, l))
    (hsat : s + l ≤ f.len) (hl : 1 ≤ l)
    (hpf : preconditionFailed (usedEtag cfg f) (usedLastMod cfg f) req = false)
    (hnm : notModified (usedEtag cfg f) (usedLastMod cfg f) req = false) :
    (respond_to cfg parse f req).contentRange
      = some ("bytes " ++ toString s ++ "-" ++ toString (s + l - 1) ++ "/" ++ toString f.len)
    ∧ (respond_to cfg parse f req).contentLength = some l
    ∧ (req.method = .GET →
        fileBytes f.content (respond_to cfg parse f req).body = (f.content.drop s).take l
        ∧ (fileBytes f.content (respond_to cfg parse f req).body).length = l
        ∧ ((s ≠ 0 ∨ l ≠ f.len) → (respond_to cfg parse f req).status = 206)
        ∧ (s = 0 ∧ l = f.len → (respond_to cfg parse f req).status = 200))
    ∧ (req.method = .HEAD →
        (respond_to cfg parse f req).status = 200
        ∧ (respond_to cfg parse f req).body = .empty) := by
  rw [respond_to_sat h200 hm hr hp, hpf, hnm]
  obtain ⟨hcr, -, -, hcl, -⟩ :=
    afterRangeResp_fields
      { condResp cfg f with contentRange := some (contentRangeStr s l f.len) }
      false false req.method f.len s l
  refine ⟨?_, hcl, ?_, ?_⟩
  · rw [hcr]
    simp [contentRangeStr]
  · intro hG
    rw [hG]
    have hbody :
        (afterRangeResp
            { condResp cfg f with contentRange := some (contentRangeStr s l f.len) }
            false false Method.GET f.len s l).body = .fileStream s l := by
      rw [afterRangeResp_body]
      simp
    refine ⟨by rw [hbody]; simp [fileBytes], ?_, ?_, ?_⟩
    · rw [hbody]
      simp only [fileBytes, List.length_take, List.length_drop]
      have h1 : l ≤ f.content.length - s := by
        have h2 := hsat
        simp only [NamedFile.len] at h2
        omega
      omega
    · intro hne
      rw [afterRangeResp_status]
      rcases hne with h | h <;> simp [h]
    · rintro ⟨rfl, rfl⟩
      rw [afterRangeResp_status]
      simp [condResp, h200]
  · intro hH
    rw [hH]
    constructor
    · rw [afterRangeResp_status]
      simp [condResp, h200]
    · rw [afterRangeResp_body]
      simp [condResp]

/-- C2 (amended): with the default status and an allowed method, a request
whose `If-Match` header contains only entity tags that do not
strong-match the file's validator receives `412 Precondition Failed` with
an empty body whenever the `Range` header is absent or parses to a
satisfiable range; when a `Range` header is present, range handling runs
first: an unreadable value yields `400` and an unsatisfiable one `416`,
taking precedence over the precondition check. -/
theorem respond_if_match_412 (cfg : StaticFileConfig)
    (parse : String → Nat → Option (Nat × Nat)) (f : NamedFile) (req : HttpRequest)
    (h200 : f.statusCode = 200) (hm : cfg.isMethodAllowed req.method = true)
    (hpre : any_match (usedEtag cfg f) req = false) :
    ((req.range = none
        ∨ ∃ str s l, req.range = some (.readable str) ∧ parse str f.len = some (s, l)) →
      (respond_to cfg parse f req).status = 412
      ∧ (respond_to cfg parse f req).body = .empty)
    ∧ (req.range = some .unreadable → (respond_to cfg parse f req).status = 400)
    ∧ (∀ str, req.range = some (.readable str) → parse str f.len = none →
        (respond_to cfg parse f req).status = 416) := by
  have hpf : preconditionFailed (usedEtag cfg f) (usedLastMod cfg f) req = true := by
    simp [preconditionFailed, hpre]
  refine ⟨?_, ?_, ?_⟩
  · rintro (hr | ⟨str, s, l, hr, hp⟩)
    · rw [respond_to_norange h200 hm hr, hpf]
      constructor
      · rw [afterRangeResp_status]
        simp
      · rw [afterRangeResp_body]
        simp [condResp]
    · rw [respond_to_sat h200 hm hr hp, hpf]
      constructor
      · rw [afterRangeResp_status]
        simp
      · rw [afterRangeResp_body]
        simp [condResp]
  · intro hr
    rw [respond_to_unreadable h200 hm hr]
  · intro str hr hp
    rw [respond_to_unsat h200 hm hr hp]

/-- C5 (amended): with the default status, an allowed method, and a
`Range` header that is absent or parses to a satisfiable range,
`respond_to` reports `412 Precondition Failed` if and only if `If-Match`
is present with entity tags none of which strong-matches the file's
validator, or `If-Unmodified-Since` is present, a last-modified value
exists, and last-modified is strictly later than the header's timestamp;
when both the precondition-failed and not-modified conditions hold, the
status is `412` and not `304`. -/
theorem respond_precondition_iff (cfg : StaticFileConfig)
    (parse : String → Nat → Option (Nat × Nat)) (f : NamedFile) (req : HttpRequest)
    (h200 : f.statusCode = 200) (hm : cfg.isMethodAllowed req.method = true)
    (hr : req.range = none
        ∨ ∃ str s l, req.range = some (.readable str) ∧ parse str f.len = some (s, l)) :
    ((respond_to cfg parse f req).status = 412
      ↔ preconditionClaim (usedEtag cfg f) (usedLastMod cfg f) req)
    ∧ (preconditionClaim (usedEtag cfg f) (usedLastMod cfg f) req
        ∧ notModifiedClaim (usedEtag cfg f) (usedLastMod cfg f) req →
        (respond_to cfg parse f req).status = 412
        ∧ (respond_to cfg parse f req).status ≠ 304) := by
  have hiff : (respond_to cfg parse f req).status = 412
      ↔ preconditionClaim (usedEtag cfg f) (usedLastMod cfg f) req := by
    rcases hr with hr | ⟨str, s, l, hr, hp⟩
    · rw [respond_to_norange h200 hm hr]
      rw [afterRange_status_412_iff _ _ _ _ _ _ _ (by simp [condResp, h200])]
      exact preconditionFailed_iff _ _ _
    · rw [respond_to_sat h200 hm hr hp]
      rw [afterRange_status_412_iff _ _ _ _ _ _ _ (by simp [condResp, h200])]
      exact preconditionFailed_iff _ _ _
  refine ⟨hiff, fun hboth => ?_⟩
  have h412 := hiff.mpr hboth.1
  exact ⟨h412, by rw [h412]; decide⟩

/-- C4 (amended): with the default status, an allowed method, a passing
precondition check, and a `Range` header that is absent or parses to a
satisfiable range, `respond_to` returns `304 Not Modified` exactly when
`If-None-Match` is `*`, or its entity tags are present and one
weak-matches the file's validator, or no `If-None-Match` header is
present at all and a last-modified value exists that is at most the
`If-Modified-Since` timestamp; a `304` response carries the validators
and no body, and the outcome is the same for `GET` and `HEAD`. -/
theorem respond_not_modified_304 (cfg : StaticFileConfig)
    (parse : String → Nat → Option (Nat × Nat)) (f : NamedFile) (req : HttpRequest)
    (h200 : f.statusCode = 200) (hm : cfg.isMethodAllowed req.method = true)
    (hG : cfg.isMethodAllowed .GET = true) (hH : cfg.isMethodAllowed .HEAD = true)
    (hpass : preconditionFailed (usedEtag cfg f) (usedLastMod cfg f) req = false)
    (hr : req.range = none
        ∨ ∃ str s l, req.range = some (.readable str) ∧ parse str f.len = some (s, l)) :
    ((respond_to cfg parse f req).status = 304
      ↔ notModifiedClaim (usedEtag cfg f) (usedLastMod cfg f) req)
    ∧ ((respond_to cfg parse f req).status = 304 →
        (respond_to cfg parse f req).body = .empty
        ∧ (respond_to cfg parse f req).etagHdr = usedEtag cfg f
        ∧ (respond_to cfg parse f req).lastModified = usedLastMod cfg f)
    ∧ ((respond_to cfg parse f { req with method := Method.GET }).status = 304
      ↔ (respond_to cfg parse f { req with method := Method.HEAD }).status = 304) := by
  have core : ∀ meth : Method, cfg.isMethodAllowed meth = true →
      ((respond_to cfg parse f { req with method := meth }).status = 304
        ↔ notModifiedClaim (usedEtag cfg f) (usedLastMod cfg f) req) := by
    intro meth hmeth
    have hpass' : preconditionFailed (usedEtag cfg f) (usedLastMod cfg f)
        { req with method := meth } = false := hpass
    have hnmiff := notModified_iff (usedEtag cfg f) (usedLastMod cfg f)
        { req with method := meth }
    have hnmclaim : notModifiedClaim (usedEtag cfg f) (usedLastMod cfg f)
        { req with method := meth }
        = notModifiedClaim (usedEtag cfg f) (usedLastMod cfg f) req := rfl
    rcases hr with hr | ⟨str, s, l, hr, hp⟩
    · rw [respond_to_norange h200 hmeth (show ({ req with method := meth } : HttpRequest).range = none from hr)]
      rw [afterRange_status_304_iff _ _ _ _ _ _ _ (by simp [condResp, h200])]
      rw [hnmclaim] at hnmiff
      simp [hpass', hnmiff]
    · rw [respond_to_sat h200 hmeth
        (show ({ req with method := meth } : HttpRequest).range = some (.readable str) from hr) hp]
      rw [afterRange_status_304_iff _ _ _ _ _ _ _ (by simp [condResp, h200])]
      rw [hnmclaim] at hnmiff
      simp [hpass', hnmiff]
  have hmain : (respond_to cfg parse f req).status = 304
      ↔ notModifiedClaim (usedEtag cfg f) (usedLastMod cfg f) req := core req.method hm
  refine ⟨hmain, fun h304 => ?_, (core .GET hG).trans (core .HEAD hH).symm⟩
  rcases hr with hr | ⟨str, s, l, hr, hp⟩
  · rw [respond_to_norange h200 hm hr] at h304 ⊢
    obtain ⟨-, hetag, hlm, -, -⟩ := afterRangeResp_fields (condResp cfg f)
      (preconditionFailed (usedEtag cfg f) (usedLastMod cfg f) req)
      (notModified (usedEtag cfg f) (usedLastMod cfg f) req) req.method f.len 0 f.len
    rw [afterRange_status_304_iff _ _ _ _ _ _ _ (by simp [condResp, h200])] at h304
    refine ⟨?_, by rw [hetag]; simp [condResp], by rw [hlm]; simp [condResp]⟩
    rw [afterRangeResp_body]
    simp [h304.1, h304.2, condResp]
  · rw [respond_to_sat h200 hm hr hp] at h304 ⊢
    obtain ⟨-, hetag, hlm, -, -⟩ := afterRangeResp_fields
      { condResp cfg f with contentRange := some (contentRangeStr s l f.len) }
      (preconditionFailed (usedEtag cfg f) (usedLastMod cfg f) req)
      (notModified (usedEtag cfg f) (usedLastMod cfg f) req) req.method f.len s l
    rw [afterRange_status_304_iff _ _ _ _ _ _ _ (by simp [condResp, h200])] at h304
    refine ⟨?_, by rw [hetag]; simp [condResp], by rw [hlm]; simp [condResp]⟩
    rw [afterRangeResp_body]
    simp [h304.1, h304.2, condResp]

/-- C6: the bootstrap future is always in exactly one of the states
`Handshake` and `Incoming`; a poll in `Handshake` whose negotiation
completes transitions to `Incoming` (with the dispatcher built from the
negotiated connection and the carried service, configuration, and peer
address) and immediately delegates to the dispatcher's poll within the
same call; a poll in `Incoming` never leaves `Incoming` (the transition
happens at most once and never reverses); a failed negotiation returns a
terminal dispatch error. -/
theorem h2_bootstrap_states {Srv Conn Cfg Addr HS HErr DErr : Type}
    (pollHandshake : HS → Poll Conn HErr)
    (pollDisp : Dispatcher Srv Conn Cfg Addr → Poll Unit DErr)
    (intoDispatchError : HErr → DErr) :
    (∀ s : H2State Srv Conn Cfg Addr HS,
      ((∃ d, s = .incoming d) ∨ ∃ srv config pa hs, s = .handshake srv config pa hs)
      ∧ ¬((∃ d, s = .incoming d) ∧ ∃ srv config pa hs, s = .handshake srv config pa hs))
    ∧ (∀ (srv : Srv) (config : Cfg) (pa : Option Addr) (hs : HS) (conn : Conn),
        pollHandshake hs = .ready conn →
        h2Poll pollHandshake pollDisp intoDispatchError (.handshake srv config pa hs)
          = (.incoming ⟨srv, conn, config, pa⟩, pollDisp ⟨srv, conn, config, pa⟩))
    ∧ (∀ d : Dispatcher Srv Conn Cfg Addr,
        h2Poll pollHandshake pollDisp intoDispatchError (.incoming d)
          = (.incoming d, pollDisp d))
    ∧ (∀ (srv : Srv) (config : Cfg) (pa : Option Addr) (hs : HS) (e : HErr),
        pollHandshake hs = .error e →
        h2Poll pollHandshake pollDisp intoDispatchError (.handshake srv config pa hs)
          = (.handshake srv config pa hs, .error (intoDispatchError e))) := by
  refine ⟨fun s => ⟨?_, ?_⟩, fun srv config pa hs conn h => ?_, fun d => rfl,
    fun srv config pa hs e h => ?_⟩
  · cases s with
    | incoming d => exact Or.inl ⟨d, rfl⟩
    | handshake srv config pa hs => exact Or.inr ⟨srv, config, pa, hs, rfl⟩
  · rintro ⟨⟨d, hd⟩, srv, config, pa, hs, hh⟩
    rw [hd] at hh
    exact H2State.noConfusion hh
  · simp [h2Poll, h]
  · simp [h2Poll, h]

/-- C7: a freshly constructed extraction future has no inner service
future; when the extraction future fails, one poll resolves to the pair
`(error, ServiceRequest)` where the `ServiceRequest` is rebuilt with
`from_parts` from the original request and its unconsumed payload, the
state is unchanged (the inner service is never stored), and the outcome
does not depend on the inner service at all; the inner service future is
created exactly when the extraction future resolves successfully, and
only then is its poll result returned. -/
theorem extract_error_propagation {T E Req Pl SFut SR Cfg : Type}
    (setRouteData : Option Cfg → Req → Req) (config : Option Cfg)
    (sreq : ServiceRequest Req Pl)
    (callService : T → Req → SFut) (pollService : SFut → Poll SR Empty) :
    (extractCall setRouteData config sreq : ExtractResponse Req Pl SFut).fut_s = none
    ∧ (∀ (er : ExtractResponse Req Pl SFut) (e : E), er.fut_s = none →
        extractPoll (.error e) callService pollService er
          = (er, .error (e, ServiceRequest.from_parts er.req er.payload)))
    ∧ (∀ (er : ExtractResponse Req Pl SFut) (e : E)
        (callService' : T → Req → SFut) (pollService' : SFut → Poll SR Empty),
        er.fut_s = none →
        (extractPoll (.error e) callService pollService er).2
          = (extractPoll (.error e) callService' pollService' er).2)
    ∧ (∀ (er : ExtractResponse Req Pl SFut) (item : T), er.fut_s = none →
        (extractPoll (E := E) (.ready item) callService pollService er).1.fut_s
          = some (callService item er.req)
        ∧ (extractPoll (E := E) (.ready item) callService pollService er).2
          = (match pollService (callService item er.req) with
            | .ready res => .ready res
            | .notReady => .notReady
            | .error e => e.elim)) := by
  refine ⟨rfl, fun er e h => ?_, fun er e cs ps h => ?_, fun er item h => ?_⟩
  · simp [extractPoll, h]
  · simp [extractPoll, h]
  · constructor
    · simp [extractPoll, h]
    · simp [extractPoll, h]

/-- C8: the JSON extractor's size limit is the configured one, defaulting
to `32768` when no `JsonConfig` route data is attached; for a request
with JSON content type whose `Content-Length` header parses to a value
strictly greater than that limit, the extraction future resolves to an
`Overflow` error having read zero payload bytes (regardless of the actual
payload); and polling the extraction pipeline with that failure yields
the error pair without ever storing or invoking the handler service. -/
theorem json_overflow_short_circuit {U : Type}
    (config : Option JsonConfig) (clh : String) (n : Nat)
    (deserialize : List Nat → Option U) (chunks : List (List Nat))
    (hcl : parseUsize clh = some n)
    (hover : n > (config.map JsonConfig.limit).getD 32768) :
    (jsonFromRequest config true (some clh)).limit
        = (config.map JsonConfig.limit).getD 32768
    ∧ JsonConfig.default.limit = 32768
    ∧ (jsonFromRequest config true (some clh)).poll deserialize chunks
        = (.error .overflow, 0)
    ∧ (∀ {Req Pl SFut SR T : Type} (er : ExtractResponse Req Pl SFut)
        (callService : T → Req → SFut) (pollService : SFut → Poll SR Empty),
        er.fut_s = none →
        extractPoll (.error JsonPayloadError.overflow) callService pollService er
          = (er, .error (.overflow, ServiceRequest.from_parts er.req er.payload)))
      := by
  refine ⟨rfl, rfl, ?_, fun er cs ps h => by simp [extractPoll, h]⟩
  simp only [jsonFromRequest, JsonBody.new, JsonBody.withLimit, Bool.not_true,
    Bool.false_eq_true, if_false, JsonBody.poll, Option.bind_eq_bind, Option.some_bind]
  simp [hcl, hover]

/-- A parse function that accepts no range at all. -/
def parseNone : String → Nat → Option (Nat × Nat) := fun _ _ => none

/-- A parse function mapping `bytes=0-` to the whole-file range. -/
def parseWholeOf : String → Nat → Option (Nat × Nat) :=
  fun s total => if s = "bytes=0-" then some (0, total) else none

/-- A parse function mapping `bytes=1-2` to the two-byte range at offset 1. -/
def parsePart : String → Nat → Option (Nat × Nat) :=
  fun s _ => if s = "bytes=1-2" then some (1, 2) else none

/-- A four-byte file with no known modification time and default status. -/
def sampleFile : NamedFile :=
  ⟨[10, 20, 30, 40], 0, none, "text/plain", "inline", none, 200⟩

/-- A four-byte file with a known modification time and default status. -/
def modFile : NamedFile :=
  ⟨[10, 20, 30, 40], 3, some (100, 5), "text/plain", "inline", none, 200⟩

/-- The sample file with the status code overridden to `404`. -/
def overrideFile : NamedFile :=
  ⟨[10, 20, 30, 40], 0, none, "text/plain", "inline", none, 404⟩

/-- A request with no conditional headers. -/
def plainReq (m : Method) (r : Option RangeRaw) : HttpRequest :=
  ⟨m, .absent, .absent, .absent, .absent, r⟩

/-- A `GET` request with a `Range` header parsing to `(1, 2)`. -/
def reqPart : HttpRequest := plainReq .GET (some (.readable "bytes=1-2"))

/-- A `GET` request with a readable but unsatisfiable `Range` header. -/
def reqUnsat : HttpRequest := plainReq .GET (some (.readable "bytes=9-"))

/-- A `GET` request with a non-matching `If-Match` tag and an
unsatisfiable `Range` header. -/
def reqIfMatchBad : HttpRequest :=
  ⟨.GET, .value (.items [⟨false, "x"⟩]), .absent, .absent, .absent,
    some (.readable "junk")⟩

/-- A `GET` request with a non-matching `If-Match` tag and no `Range`
header. -/
def reqIfMatchBadNoRange : HttpRequest :=
  ⟨.GET, .value (.items [⟨false, "x"⟩]), .absent, .absent, .absent, none⟩

/-- A `GET` request with a non-matching `If-Match` tag and an unreadable
`Range` header. -/
def reqIfMatchUnreadable : HttpRequest :=
  ⟨.GET, .value (.items [⟨false, "x"⟩]), .absent, .absent, .absent, some .unreadable⟩

/-- A `GET` request with `If-None-Match: *` and an unsatisfiable `Range`
header. -/
def reqINMAnyBadRange : HttpRequest :=
  ⟨.GET, .absent, .value .any, .absent, .absent, some (.readable "junk")⟩

/-- A `GET` request with `If-None-Match: *` and no `Range` header. -/
def reqINMAny : HttpRequest :=
  ⟨.GET, .absent, .value .any, .absent, .absent, none⟩

/-- A `GET` request with `If-Unmodified-Since: 50` and no `Range`
header. -/
def reqIUS : HttpRequest :=
  ⟨.GET, .absent, .absent, .value 50, .absent, none⟩

/-- C1 counterexample: a `GET` request whose `Range` header parses to the
satisfiable range covering the whole file (start `0`, length `4` against
total `4`), with all preconditions passing, is answered with status
`200`, not `206` — refuting the claim's "including a range covering the
whole file". -/
theorem respond_whole_range_cex :
    (respond_to DefaultConfig parseWholeOf sampleFile
        (plainReq .GET (some (.readable "bytes=0-")))).status = 200
    ∧ parseWholeOf "bytes=0-" sampleFile.len = some (0, sampleFile.len)
    ∧ 0 + sampleFile.len ≤ sampleFile.len
    ∧ preconditionFailed (usedEtag DefaultConfig sampleFile)
        (usedLastMod DefaultConfig sampleFile)
        (plainReq .GET (some (.readable "bytes=0-"))) = false
    ∧ notModified (usedEtag DefaultConfig sampleFile)
        (usedLastMod DefaultConfig sampleFile)
        (plainReq .GET (some (.readable "bytes=0-"))) = false
    ∧ (200 : Nat) ≠ 206 := by
  decide

/-- C1 witness: the amended theorem at a concrete proper sub-range. -/
theorem respond_satisfiable_range_witness :
    (respond_to DefaultConfig parsePart sampleFile reqPart).status = 206 :=
  (((respond_satisfiable_range DefaultConfig parsePart sampleFile reqPart
      "bytes=1-2" 1 2 (by decide) (by decide) rfl (by decide) (by decide)
      (by decide) (by decide) (by decide)).2.2.1 rfl).2.2.1) (Or.inl (by decide))

/-- C2 counterexample: with `If-Match` containing only a non-matching
tag and a present but unsatisfiable `Range` header, `respond_to` returns
`416`, not `412` — the range-parse failure preempts the precondition
check. -/
theorem respond_if_match_cex :
    (respond_to DefaultConfig parseNone sampleFile reqIfMatchBad).status = 416
    ∧ any_match (usedEtag DefaultConfig sampleFile) reqIfMatchBad = false
    ∧ (416 : Nat) ≠ 412 := by
  decide

/-- C2 witness: the amended theorem with the `Range` header absent. -/
theorem respond_if_match_412_witness :
    (respond_to DefaultConfig parseNone sampleFile reqIfMatchBadNoRange).status = 412 :=
  ((respond_if_match_412 DefaultConfig parseNone sampleFile reqIfMatchBadNoRange
      (by decide) (by decide) (by decide)).1 (Or.inl rfl)).1

/-- C3 witness: the theorem at a concrete unsatisfiable range. -/
theorem respond_unsat_range_416_witness :
    (respond_to DefaultConfig parseNone sampleFile reqUnsat).contentRange
      = some ("bytes */" ++ toString sampleFile.len) :=
  (respond_unsat_range_416 DefaultConfig parseNone sampleFile reqUnsat
      "bytes=9-" (by decide) (by decide) rfl (by decide)).2.1

/-- C4 counterexample: a request with `If-None-Match: *` (so the claim's
not-modified condition holds) and a passing precondition check, but an
unsatisfiable `Range` header, is answered with `416`, not `304`. -/
theorem respond_not_modified_cex :
    (respond_to DefaultConfig parseNone sampleFile reqINMAnyBadRange).status = 416
    ∧ preconditionFailed (usedEtag DefaultConfig sampleFile)
        (usedLastMod DefaultConfig sampleFile) reqINMAnyBadRange = false
    ∧ reqINMAnyBadRange.ifNoneMatch.get = some .any
    ∧ (416 : Nat) ≠ 304 := by
  decide

/-- C4 witness: the amended theorem at `If-None-Match: *` with no `Range`
header. -/
theorem respond_not_modified_304_witness :
    (respond_to DefaultConfig parseNone sampleFile reqINMAny).status = 304 :=
  (respond_not_modified_304 DefaultConfig parseNone sampleFile reqINMAny
      (by decide) (by decide) (by decide) (by decide) (by decide)
      (Or.inl rfl)).1.mpr (Or.inl rfl)

/-- C5 counterexample: with `If-Match` containing only a non-matching tag
(so the claim's 412-condition holds) but an unreadable `Range` header,
`respond_to` returns `400`, not `412` — refuting the claim's "if and
only if". -/
theorem respond_precondition_cex :
    (respond_to DefaultConfig parseNone sampleFile reqIfMatchUnreadable).status = 400
    ∧ preconditionFailed (usedEtag DefaultConfig sampleFile)
        (usedLastMod DefaultConfig sampleFile) reqIfMatchUnreadable = true
    ∧ reqIfMatchUnreadable.ifMatch.get = some (.items [⟨false, "x"⟩])
    ∧ (400 : Nat) ≠ 412 := by
  decide

/-- C5 witness: the amended theorem at a concrete
`If-Unmodified-Since` in the past of the file's modification time. -/
theorem respond_precondition_iff_witness :
    (respond_to DefaultConfig parseNone modFile reqIUS).status = 412 :=
  (respond_precondition_iff DefaultConfig parseNone modFile reqIUS
      (by decide) (by decide) (Or.inl rfl)).1.mpr
    (Or.inr ⟨100, 50, by decide, by decide, by decide⟩)

/-- C9 witness: the theorem at the `404`-overridden file. -/
theorem respond_status_override_witness :
    fileBytes overrideFile.content
      (respond_to DefaultConfig parseNone overrideFile (plainReq .GET none)).body
      = [10, 20, 30, 40] :=
  (respond_status_override DefaultConfig parseNone overrideFile
      (by decide) (plainReq .GET none)).2.2

/-- C10 witness: the theorem at a concrete unreadable `Range` header on a
request whose precondition check would fail. -/
theorem respond_unreadable_range_400_witness :
    (respond_to DefaultConfig parseNone sampleFile reqIfMatchUnreadable).body
      = RespBody.empty :=
  (respond_unreadable_range_400 DefaultConfig parseNone sampleFile
      reqIfMatchUnreadable (by decide) (by decide) rfl).2.1

/-- A concrete handshake whose negotiation succeeds at token `0` with
connection `7` and fails elsewhere with error `9`. -/
def pHs : Nat → Poll Nat Nat := fun hs => if hs = 0 then .ready 7 else .error 9

/-- A concrete dispatcher poll. -/
def pDs : Dispatcher Nat Nat Nat Nat → Poll Unit Nat :=
  fun d => if d.conn = 7 then .notReady else .ready ()

/-- A concrete handshake-error conversion. -/
def iEs : Nat → Nat := fun e => e + 1

/-- C6 witness: the theorem's success-transition clause at a concrete
state; the poll both transitions to `Incoming` and returns the new
dispatcher's own poll result. -/
theorem h2_bootstrap_states_witness :
    h2Poll pHs pDs iEs (.handshake 1 2 none 0)
      = (.incoming ⟨1, 7, 2, none⟩, Poll.notReady) := by
  have h := (h2_bootstrap_states pHs pDs iEs).2.1 1 2 none 0 7 (by decide)
  rw [h]
  decide

/-- C7 witness: the theorem's failure clause at a concrete extraction
state. -/
theorem extract_error_propagation_witness :
    @extractPoll Nat Nat Nat Nat Nat Nat (.error 5)
        (fun a r => a + r) (fun _ => Poll.notReady) ⟨3, 4, none⟩
      = (⟨3, 4, none⟩, .error (5, ServiceRequest.from_parts 3 4)) :=
  (@extract_error_propagation Nat Nat Nat Nat Nat Nat Nat (fun _ r => r) none ⟨3, 4⟩
      (fun a r => a + r) (fun _ => Poll.notReady)).2.1 ⟨3, 4, none⟩ 5 rfl

/-- C8 witness: the theorem at a declared `Content-Length` of 40000
against the default 32768 limit, with a nonempty payload. -/
theorem json_overflow_short_circuit_witness :
    (jsonFromRequest none true (some "40000")).poll
        (fun _ => (none : Option Nat)) [[1, 2, 3]]
      = (.error .overflow, 0) :=
  (json_overflow_short_circuit none "40000" 40000
      (fun _ => (none : Option Nat)) [[1, 2, 3]] (by decide) (by decide)).2.2.1

end ActixWeb
